import Mathlib

/-!
# Verification of the Codebase-Analyzer file-discovery and file-reading tools

A shallow embedding, in Lean 4, of the two tool implementations of the
repository:

* `src/tools/readFileTool.ts` — a gitignore-style pattern filter, a recursive
  capped directory scanner, and the `read_file_structure` tool built on them;
* `src/tools/readFileCodeTool.ts` — path resolution against the workspace root
  and the batched `read_file_code` reader.

JavaScript strings are modelled as Lean `String` values (operations such as
`includes`, `startsWith`, `split`, `trim` are re-implemented below over the
character list, matching the code-unit semantics the source relies on;
`localeCompare` is modelled as lexicographic comparison by code point).
The file system visible to the scanner is modelled as a tree of named
entries, and the file system visible to the reader as a map from resolved
path strings to nodes.  All definitions are executable.
-/

/-! ## String helpers (models of the JavaScript string methods used) -/

/-- Model of JS `String.prototype.startsWith`: is `pre` a prefix of `s`
(char-by-char)? -/
def isPrefixL : List Char → List Char → Bool
  | [], _ => true
  | _ :: _, [] => false
  | a :: as, b :: bs => a == b && isPrefixL as bs

/-- Model of JS `String.prototype.includes`: does `pat` occur as a contiguous
substring of `s`? -/
def isInfixL (pat : List Char) : List Char → Bool
  | [] => isPrefixL pat []
  | c :: s => isPrefixL pat (c :: s) || isInfixL pat s

/-- JS `s.startsWith(pre)`. -/
def jsStartsWith (s pre : String) : Bool := isPrefixL pre.data s.data

/-- JS `s.endsWith(suf)`. -/
def jsEndsWith (s suf : String) : Bool := isPrefixL suf.data.reverse s.data.reverse

/-- JS `s.includes(sub)`. -/
def jsIncludes (s sub : String) : Bool := isInfixL sub.data s.data

/-- JS `s.split(sep)` for a one-character separator (the source only splits on
`"\n"`). -/
def splitOnCharAux (sep : Char) : List Char → List Char → List String
  | [], cur => [String.mk cur.reverse]
  | a :: as, cur =>
    if a == sep then String.mk cur.reverse :: splitOnCharAux sep as []
    else splitOnCharAux sep as (a :: cur)

/-- JS `s.split("\n")`. -/
def jsSplitNl (s : String) : List String := splitOnCharAux '\n' s.data []

/-- The whitespace characters JS `trim` removes (the common ones: space, tab,
CR, LF; other Unicode whitespace is not exercised by the claims). -/
def isJsWs (c : Char) : Bool := c == ' ' || c == '\t' || c == '\n' || c == '\r'

/-- JS `s.trim()`. -/
def jsTrim (s : String) : String :=
  String.mk (((s.data.dropWhile isJsWs).reverse.dropWhile isJsWs).reverse)

/-- JS `s.replace(/\\/g, "/")` — replace every backslash by a forward slash
(used to normalise Windows path separators in `matchesGitignorePattern`). -/
def normalizeSeps (s : String) : String :=
  String.mk (s.data.map (fun c => if c == '\\' then '/' else c))

/-- Model of Node `path.extname` on a bare file name: the suffix from the last
`.`, or `""` when there is no `.` or the only `.` is the leading character
(hidden files). -/
def extname (name : String) : String :=
  let rev := name.data.reverse
  let afterDot := rev.takeWhile (fun c => c != '.')
  match rev.drop afterDot.length with
  | [] => ("")
  | [_] => ("")
  | _ => String.mk ('.' :: afterDot.reverse)

/-- Lexicographic order on char lists by code point; models
`a.localeCompare(b) <= 0` as used by the scanner's final sort. -/
def lexLe : List Char → List Char → Bool
  | [], _ => true
  | _ :: _, [] => false
  | a :: as, b :: bs =>
    if a = b then lexLe as bs else decide (a < b)

/-- `a.localeCompare(b) <= 0`, modelled as code-point lexicographic order. -/
def strLe (a b : String) : Bool := lexLe a.data b.data

/-! ## Glob matching

`matchSinglePattern` (mode A) compiles a pattern containing `*` to the regular
expression ``(^|/)P($|/)`` where `P` escapes `.`, maps `*` to `.*` and `?` to
`.`; `shouldSkipFile`'s predefined branch (mode B) compiles to the unanchored
regular expression `P'` where `P'` escapes `.` and maps `*` to `.*`.  Both are
modelled below as token-list matchers.  A regex `.` (and the `.` inside `.*`)
matches any character except a newline.  Regex metacharacters other than
`. * ?` are not escaped by the source; none occur in the pattern lists the
claims exercise, and they are modelled as literals. -/

inductive GTok : Type where
  | wild               -- `.*`
  | anyc               -- `.`
  | lit : Char → GTok  -- a literal character
deriving Repr, DecidableEq

/-- Compile a mode-A wildcard pattern (`*` → `.*`, `?` → `.`, rest literal). -/
def compileA (p : String) : List GTok :=
  p.data.map (fun c => if c == '*' then GTok.wild else if c == '?' then GTok.anyc else GTok.lit c)

/-- Compile a mode-B wildcard pattern (`*` → `.*`, rest literal). -/
def compileB (p : String) : List GTok :=
  p.data.map (fun c => if c == '*' then GTok.wild else GTok.lit c)

/-- Does the token list match a prefix of `s`, with the end of the match
subject to the boundary flag?  `bnd = true` demands the `($|/)` boundary of
mode A; `bnd = false` accepts as soon as the pattern is exhausted (unanchored
search).  The fuel argument strictly exceeds `pat.length + s.length` at every
external call, and every recursive step decreases that sum, so the `0` case is
unreachable. -/
def globMF : Nat → Bool → List GTok → List Char → Bool
  | 0, _, _, _ => false
  | _ + 1, bnd, [], s =>
    if bnd then
      match s with
      | [] => true
      | c :: _ => c == '/'
    else true
  | f + 1, bnd, GTok.wild :: ps, s =>
    globMF f bnd ps s ||
      (match s with
       | [] => false
       | c :: s' => c != '\n' && globMF f bnd (GTok.wild :: ps) s')
  | f + 1, bnd, GTok.anyc :: ps, s =>
    (match s with
     | [] => false
     | c :: s' => c != '\n' && globMF f bnd ps s')
  | f + 1, bnd, GTok.lit c :: ps, s =>
    (match s with
     | [] => false
     | d :: s' => c == d && globMF f bnd ps s')

/-- Unanchored regex search (mode B): try every start position. -/
def globSearchBAux (pat : List GTok) : List Char → Bool
  | [] => globMF (pat.length + 1) false pat []
  | c :: s' =>
    globMF (pat.length + (c :: s').length + 1) false pat (c :: s') || globSearchBAux pat s'

/-- Model of `new RegExp(P').test(s)` for the mode-B compiled pattern. -/
def globSearchB (pat : List GTok) (s : String) : Bool := globSearchBAux pat s.data

/-- Anchored-segment regex search (mode A): a start position is the beginning
of the string or just after a `/`; the end must be the end of the string or a
`/`. -/
def globSearchSegAux (pat : List GTok) : List Char → Bool
  | [] => false
  | c :: s' =>
    (c == '/' && globMF (pat.length + s'.length + 1) true pat s') || globSearchSegAux pat s'

/-- Model of ``new RegExp(`(^|/)P($|/)`).test(s)`` for the mode-A compiled
pattern. -/
def globSearchSeg (pat : List GTok) (s : String) : Bool :=
  globMF (pat.length + s.data.length + 1) true pat s.data || globSearchSegAux pat s.data

/-! ## The gitignore-style matcher (`readFileTool.ts`, mode A) -/

/-- Embeds `matchSinglePattern(filePath, fileName, pattern)`. -/
def matchSinglePattern (filePath fileName pattern : String) : Bool :=
  -- pattern.replace(/^\//, "")
  let pattern := if jsStartsWith pattern ("/") then pattern.drop 1 else pattern
  if jsEndsWith pattern ("/") then
    -- directory patterns
    let dirPattern := pattern.dropRight 1
    jsIncludes filePath (dirPattern ++ ("/")) || filePath == dirPattern || fileName == dirPattern
  else if jsIncludes pattern ("*") then
    -- wildcard patterns
    globSearchSeg (compileA pattern) filePath || globSearchSeg (compileA pattern) fileName
  else
    -- exact matches and path segments
    jsIncludes filePath pattern || fileName == pattern ||
      jsEndsWith filePath (("/") ++ pattern) || jsStartsWith filePath (pattern ++ ("/"))

/-- The pattern loop of `matchesGitignorePattern`, in pattern order: an empty
pattern is ignored; a matching negation returns `false` (do not skip); a
matching plain pattern returns `true` (skip); otherwise the next pattern is
tried. -/
def matchesGitignoreAux (normalizedPath fileName : String) : List String → Bool
  | [] => false
  | pattern :: rest =>
    if pattern == ("") then matchesGitignoreAux normalizedPath fileName rest
    else if jsStartsWith pattern ("!") then
      if matchSinglePattern normalizedPath fileName (pattern.drop 1) then false
      else matchesGitignoreAux normalizedPath fileName rest
    else if matchSinglePattern normalizedPath fileName pattern then true
    else matchesGitignoreAux normalizedPath fileName rest

/-- Embeds `matchesGitignorePattern(filePath, fileName, patterns)`. -/
def matchesGitignorePattern (filePath fileName : String) (patterns : List String) : Bool :=
  matchesGitignoreAux (normalizeSeps filePath) fileName patterns

/-! ## Skip patterns and `shouldSkipFile` -/

/-- Embeds `parseGitignoreFile`: the ignore file's content (`none` when the
file is missing or unreadable) split into trimmed lines, blank lines and `#`
comments dropped.  (The subsequent `.map` in the source is the identity.) -/
def parseGitignoreFile : Option String → List String
  | none => []
  | some content =>
    ((jsSplitNl content).map jsTrim).filter
      (fun line => !(line == ("")) && !jsStartsWith line ("#"))

/-- The predefined skip patterns of `getSkipPatterns`. -/
def predefinedPatterns : List String :=
  [("node_modules"), (".git"), (".vscode"), ("dist"), ("build"), ("coverage"),
   (".next"), (".nuxt"), ("target"), ("bin"), ("obj"), (".DS_Store"),
   ("Thumbs.db"), (".env"), ("public"), ("*.log"), ("*.tmp"), ("*.temp"),
   (".cache"), (".parcel-cache"), ("vendor"), ("__pycache__"),
   (".pytest_cache"), (".mypy_cache")]

/-- Embeds `getSkipPatterns`: the gitignore patterns when the parse yields a
non-empty list, else the predefined list; the boolean is `useGitignore`. -/
def getSkipPatterns (ignoreContent : Option String) : List String × Bool :=
  let parsed := parseGitignoreFile ignoreContent
  if parsed.length > 0 then (parsed, true) else (predefinedPatterns, false)

/-- The dotfile allow-list test of mode B:
`name.match(/^\.(env|gitignore|eslintrc|prettierrc|editorconfig)/)` — an
unanchored-at-the-end prefix match. -/
def dotfileAllowed (name : String) : Bool :=
  jsStartsWith name (".env") || jsStartsWith name (".gitignore") ||
    jsStartsWith name (".eslintrc") || jsStartsWith name (".prettierrc") ||
    jsStartsWith name (".editorconfig")

/-- The predefined-pattern branch of `shouldSkipFile` (mode B). -/
def shouldSkipPredef (name relativePath : String) (patterns : List String) : Bool :=
  patterns.any (fun pattern =>
    if jsIncludes pattern ("*") then
      globSearchB (compileB pattern) name || globSearchB (compileB pattern) relativePath
    else jsIncludes name pattern || jsIncludes relativePath pattern) ||
  (jsStartsWith name (".") && !dotfileAllowed name)

/-- Embeds `shouldSkipFile(name, relativePath, workspaceRoot)`, with the
pattern source already resolved by `getSkipPatterns`. -/
def shouldSkipFile (name relativePath : String) (patterns : List String)
    (usingGitignore : Bool) : Bool :=
  if usingGitignore then matchesGitignorePattern relativePath name patterns
  else shouldSkipPredef name relativePath patterns

/-! ## The workspace model and the directory scanner (`readFileTool.ts`) -/

/-- A directory entry of the workspace tree, as `vscode.workspace.fs.
readDirectory` reports it: a regular file, a directory with its listing (in
listing order), or an entry of another `vscode.FileType` (symlink/unknown),
which the scanner neither records nor recurses into. -/
inductive Entry : Type where
  | file : String → Entry
  | dir : String → List Entry → Entry
  | other : String → Entry
deriving Repr

/-- `FileInfo` of `readFileTool.ts`. -/
inductive FileType : Type where
  | file
  | directory
deriving Repr, DecidableEq

structure FileInfo where
  name : String
  relativePath : String
  type : FileType
  extension : Option String
deriving Repr, DecidableEq

/-- `path.relative(rootPath, path.join(dirPath, name))` for an entry `name`
directly inside the directory whose root-relative path is `parentRel` (`""`
for the root itself). -/
def joinRel (parentRel name : String) : String :=
  if parentRel == ("") then name else parentRel ++ ("/") ++ name

/-- The `FileInfo` pushed for a file entry. -/
def mkFileInfo (name rel : String) : FileInfo :=
  { name := name, relativePath := rel, type := FileType.file,
    extension := if extname name == ("") then none else some (extname name) }

/-- The `FileInfo` pushed for a directory entry. -/
def mkDirInfo (name rel : String) : FileInfo :=
  { name := name, relativePath := rel, type := FileType.directory, extension := none }

mutual

/-- One iteration of the `for (const [name, type] of entries)` loop body of
`scanDirectory`: the skip test, the push, and — for directories — the
recursive call, threading the accumulator `acc` (the mutated `files` array). -/
def scanEntry (skip : String → String → Bool) (maxFiles : Nat)
    (parentRel : String) (acc : List FileInfo) : Entry → List FileInfo
  | Entry.file name =>
    let rel := joinRel parentRel name
    if skip name rel then acc
    else acc ++ [mkFileInfo name rel]
  | Entry.dir name children =>
    let rel := joinRel parentRel name
    if skip name rel then acc
    else scanList skip maxFiles rel (acc ++ [mkDirInfo name rel]) children
  | Entry.other name =>
    let rel := joinRel parentRel name
    if skip name rel then acc else acc

/-- Embeds `scanDirectory`: iterate over the listing of one directory,
breaking as soon as the accumulator holds `maxFiles` entries (the same test
also guards the top of `scanDirectory`, which this per-entry check subsumes). -/
def scanList (skip : String → String → Bool) (maxFiles : Nat)
    (parentRel : String) (acc : List FileInfo) : List Entry → List FileInfo
  | [] => acc
  | e :: rest =>
    if acc.length ≥ maxFiles then acc
    else scanList skip maxFiles parentRel (scanEntry skip maxFiles parentRel acc e) rest

end

mutual

/-- The entries an uncapped scan would collect from one entry (the
specification-side "non-skipped entries" of a tree): used to state what the
capped scan truncates. -/
def fullScanEntry (skip : String → String → Bool) (parentRel : String) :
    Entry → List FileInfo
  | Entry.file name =>
    let rel := joinRel parentRel name
    if skip name rel then [] else [mkFileInfo name rel]
  | Entry.dir name children =>
    let rel := joinRel parentRel name
    if skip name rel then []
    else mkDirInfo name rel :: fullScanList skip rel children
  | Entry.other _ => []

def fullScanList (skip : String → String → Bool) (parentRel : String) :
    List Entry → List FileInfo
  | [] => []
  | e :: rest => fullScanEntry skip parentRel e ++ fullScanList skip parentRel rest

end

/-- The comparator of the final `.sort`: directories strictly before files,
`localeCompare` within a kind — as a boolean "a comes no later than b". -/
def fileLe (a b : FileInfo) : Bool :=
  if a.type == b.type then strLe a.name b.name else a.type == FileType.directory

/-- The skip test a scan uses, with its pattern source resolved once per call
(`getSkipPatterns` result applied to `shouldSkipFile`). -/
def scanSkip (ignore : Option String) (name rel : String) : Bool :=
  shouldSkipFile name rel (getSkipPatterns ignore).1 (getSkipPatterns ignore).2

/-- Embeds `getWorkspaceStructure(maxFiles)` for an open workspace whose root
listing is `ws` and whose root ignore file has content `ignore` (`none`:
missing).  The module-level pattern cache is reset at the start of every call,
so the patterns are simply recomputed here.  JS `Array.prototype.sort` is a
stable sort consistent with the comparator, modelled by `List.mergeSort`. -/
def getWorkspaceStructure (ignore : Option String) (maxFiles : Nat)
    (ws : List Entry) : List FileInfo :=
  ((scanList (scanSkip ignore) maxFiles ("") [] ws).take maxFiles).mergeSort fileLe

/-- Embeds `formatStructureForLLM`. -/
def formatStructureForLLM (files : List FileInfo) (usingGitignore : Bool) : String :=
  let directories := files.filter (fun f => f.type == FileType.directory)
  let codeFiles := files.filter (fun f => f.type == FileType.file)
  let header :=
    ("# Workspace File Structure\n\n") ++
      (if usingGitignore then
        ("ℹ️ *Using .gitignore patterns for file filtering*\n\n")
      else
        ("ℹ️ *Using predefined patterns for file filtering (no .gitignore found)*\n\n"))
  let dirBlock :=
    if directories.length > 0 then
      ("## Directories:\n") ++
        String.join (directories.map (fun d => ("- ") ++ d.relativePath ++ ("/\n"))) ++ ("\n")
    else ("")
  let fileBlock :=
    ("## Files:\n") ++
      String.join (codeFiles.map (fun f =>
        let ext := match f.extension with
          | some e => (" (") ++ e ++ (")")
          | none => ("")
        ("- ") ++ f.relativePath ++ ext ++ ("\n")))
  header ++ dirBlock ++ fileBlock

/-- The structured result of the `read_file_structure` tool. -/
structure StructResult where
  success : Bool
  fileCount : Nat
  structure_ : String
  usingGitignore : Bool
  message : String
deriving Repr, DecidableEq

set_option linter.unusedVariables false in
/-- Embeds the `func` of `createReadFileTool` for an open workspace.
`includeHidden` is accepted (with its schema default `false`) but, as in the
source, never read. -/
def readFileStructureTool (includeHidden : Bool) (maxFiles : Nat)
    (ignore : Option String) (ws : List Entry) : StructResult :=
  let files := getWorkspaceStructure ignore maxFiles ws
  let usingGitignore := (getSkipPatterns ignore).2
  { success := true
    fileCount := files.length
    structure_ := formatStructureForLLM files usingGitignore
    usingGitignore := usingGitignore
    message :=
      ("Successfully scanned ") ++ toString files.length ++
        (" files and directories ") ++
        (if usingGitignore then ("using .gitignore patterns")
         else ("using predefined patterns")) }

/-! ## Path resolution and the batch file reader (`readFileCodeTool.ts`) -/

/-- POSIX `path.isAbsolute`. -/
def pathIsAbsolute (p : String) : Bool := jsStartsWith p ("/")

/-- Split a path on `/`. -/
def splitSlash (p : String) : List String := splitOnCharAux '/' p.data []

/-- Normalise path segments: drop empty and `.` segments, let `..` pop the
previous segment (and vanish at the root, as `path.resolve` does for an
absolute base). -/
def normSegs (segs : List String) : List String :=
  segs.foldl
    (fun acc seg =>
      if seg == ("") || seg == (".") then acc
      else if seg == ("..") then acc.dropLast
      else acc ++ [seg])
    []

/-- Model of Node `path.resolve(root, fp)` for an absolute `root` (the
workspace root is an absolute `fsPath`): an absolute `fp` wins outright,
otherwise `fp` is appended to `root`; the result is normalised. -/
def pathResolve (root fp : String) : String :=
  let combined := if pathIsAbsolute fp then fp else root ++ ("/") ++ fp
  ("/") ++ String.intercalate ("/") (normSegs (splitSlash combined))

/-- Embeds `resolveFilePath(filePath)` with the workspace root made explicit. -/
def resolveFilePath (workspaceRoot filePath : String) : String :=
  if pathIsAbsolute filePath && jsStartsWith filePath workspaceRoot then filePath
  else pathResolve workspaceRoot filePath

/-- What a resolved path denotes on disk: nothing, a directory (or other
non-regular-file `vscode.FileType`), a readable regular file with the given
text content, or a regular file whose read throws with the given message. -/
inductive FsNode : Type where
  | missing
  | directory
  | file : String → FsNode
  | unreadable : String → FsNode
deriving Repr, DecidableEq

/-- `Buffer.byteLength(content, "utf8")`. -/
def utf8Len (s : String) : Nat := s.utf8ByteSize

/-- Render `h` hundredths as JS renders the number `h / 100` (trailing zeros
trimmed). -/
def renderHundredths (h : Nat) : String :=
  let intPart := h / 100
  let frac := h % 100
  if frac == 0 then toString intPart
  else if frac % 10 == 0 then toString intPart ++ (".") ++ toString (frac / 10)
  else if frac < 10 then toString intPart ++ (".0") ++ toString frac
  else toString intPart ++ (".") ++ toString frac

/-- Floor logarithm base 1024 (`Math.floor(Math.log(bytes) / Math.log(1024))`
for a positive integer).  The first argument is fuel; `log1024` supplies the
number itself, which bounds the recursion depth. -/
def log1024Aux : Nat → Nat → Nat
  | 0, _ => 0
  | f + 1, n => if n < 1024 then 0 else 1 + log1024Aux f (n / 1024)

def log1024 (n : Nat) : Nat := log1024Aux n n

/-- Embeds `formatFileSize(bytes)`.  `Math.floor(Math.log(bytes) /
Math.log(1024))` is the floor base-1024 logarithm, and the two-decimal
rounding is done here over naturals (round half up) rather than IEEE doubles;
for sizes of a few GB and beyond the source indexes past the end of `sizes`
and JS renders `undefined`, modelled by `getD`. -/
def formatFileSize (bytes : Nat) : String :=
  if bytes == 0 then ("0 Bytes")
  else
    let i := log1024 bytes
    let p := 1024 ^ i
    let hundredths := (bytes * 100 * 2 + p) / (2 * p)
    renderHundredths hundredths ++ (" ") ++
      ([("Bytes"), ("KB"), ("MB")].getD i ("undefined"))

/-- The per-file result object of `processFile`. -/
structure ProcResult where
  success : Bool
  filePath : String
  content : Option String
  size : Option String
  error : Option String
deriving Repr, DecidableEq

/-- Embeds `processFile(filePath)`: resolve, probe existence as a regular
file, read, stat for the size line.  A missing or non-file path yields the
not-found failure; a read that throws is caught and yields its message.  The
stat size of a text file is its UTF-8 byte length. -/
def processFile (fs : String → FsNode) (workspaceRoot filePath : String) : ProcResult :=
  match fs (resolveFilePath workspaceRoot filePath) with
  | FsNode.file content =>
    { success := true, filePath := filePath, content := some content,
      size := some (formatFileSize (utf8Len content)), error := none }
  | FsNode.unreadable msg =>
    { success := false, filePath := filePath, content := none, size := none,
      error := some (("Failed to read file: ") ++ msg) }
  | _ =>
    { success := false, filePath := filePath, content := none, size := none,
      error := some (("File not found: ") ++ filePath) }

structure SuccessRead where
  filePath : String
  content : String
  size : String
deriving Repr, DecidableEq

structure FailRead where
  filePath : String
  error : String
deriving Repr, DecidableEq

structure BatchResult where
  successfulReads : List SuccessRead
  failedReads : List FailRead
  totalFiles : Nat
deriving Repr, DecidableEq

/-- Embeds `processMultipleFiles(filePaths)`: `Promise.all` preserves the
order of the mapped array, so the results are the map of `processFile` over
the paths; the source then partitions by `success`, reading the non-null
fields. -/
def processMultipleFiles (fs : String → FsNode) (workspaceRoot : String)
    (filePaths : List String) : BatchResult :=
  let results := filePaths.map (processFile fs workspaceRoot)
  { successfulReads :=
      (results.filter (fun r => r.success)).map
        (fun r => { filePath := r.filePath, content := r.content.getD (""),
                    size := r.size.getD ("") })
    failedReads :=
      (results.filter (fun r => !r.success)).map
        (fun r => { filePath := r.filePath, error := r.error.getD ("") })
    totalFiles := filePaths.length }

/-- Embeds `formatFileContentForLLM(successfulReads, failedReads)`. -/
def formatFileContentForLLM (succ : List SuccessRead) (failed : List FailRead) : String :=
  let sblock :=
    if succ.length > 0 then
      ("## Successfully Read Files:\n\n") ++
        String.join (succ.enum.map (fun p =>
          ("### ") ++ toString (p.1 + 1) ++ (". ") ++ p.2.filePath ++ ("\n") ++
            ("**Size:** ") ++ p.2.size ++ ("\n\n") ++ ("```\n") ++ p.2.content ++
            ("\n```\n\n")))
    else ("")
  let fblock :=
    if failed.length > 0 then
      ("## Failed to Read:\n\n") ++
        String.join (failed.map (fun f =>
          ("- **") ++ f.filePath ++ (":** ") ++ f.error ++ ("\n"))) ++ ("\n")
    else ("")
  ("# File Contents\n\n") ++ sblock ++ fblock

/-- The structured result object of the `read_file_code` tool: a validation
failure (`{success: false, error, message}`) or a success report with its
counts. -/
inductive ReadCodeResult : Type where
  | failure : String → String → ReadCodeResult
  | ok : Nat → Nat → Nat → Nat → String → String → ReadCodeResult
deriving Repr, DecidableEq

/-- The size filter applied to the successful reads
(`sizeBytes <= maxSizeBytes` with `maxSizeBytes = maxFileSize * 1024`). -/
def filteredSuccessfulReads (maxFileSize : Nat) (succ : List SuccessRead) : List SuccessRead :=
  succ.filter (fun file => utf8Len file.content ≤ maxFileSize * 1024)

/-- Embeds the `func` of `createReadFileCodeTool`: the two validation
failures, then `processMultipleFiles`, the size filter, and the count report
`ok filesRead filesFailed filesOversized totalRequested content message`. -/
def readFileCode (fs : String → FsNode) (workspaceRoot : String)
    (filePaths : List String) (maxFileSize : Nat) : ReadCodeResult :=
  if filePaths.length == 0 then
    ReadCodeResult.failure ("No file paths provided")
      ("Please provide at least one file path to read")
  else if filePaths.length > 10 then
    ReadCodeResult.failure ("Too many files requested")
      (("Requested ") ++ toString filePaths.length ++
        (" files, but maximum is 10 files per call"))
  else
    let results := processMultipleFiles fs workspaceRoot filePaths
    let filteredSuccessful := filteredSuccessfulReads maxFileSize results.successfulReads
    let oversizedFiles := results.successfulReads.length - filteredSuccessful.length
    ReadCodeResult.ok filteredSuccessful.length results.failedReads.length
      oversizedFiles results.totalFiles
      (formatFileContentForLLM filteredSuccessful results.failedReads)
      (("Successfully read ") ++ toString filteredSuccessful.length ++ ("/") ++
        toString results.totalFiles ++ (" files"))

/-- The four counters of a successful `read_file_code` result:
`(filesRead, filesFailed, filesOversized, totalRequested)`. -/
def ReadCodeResult.counts : ReadCodeResult → Option (Nat × Nat × Nat × Nat)
  | ReadCodeResult.failure _ _ => none
  | ReadCodeResult.ok r f o t _ _ => some (r, f, o, t)

/-- The rendered content block of a successful `read_file_code` result. -/
def ReadCodeResult.contentOf : ReadCodeResult → Option String
  | ReadCodeResult.failure _ _ => none
  | ReadCodeResult.ok _ _ _ _ c _ => some c

/-! ## Remaining definitions: spec-side refinement target, classification
helpers, and concrete fixtures used by witnesses and counterexamples -/

/-- Does the node denote an existing regular file (`fileExists` probes
`stat.type === vscode.FileType.File`)? -/
def isRegularFile : FsNode → Bool
  | FsNode.file _ => true
  | FsNode.unreadable _ => true
  | _ => false

/-- Modelled from the spec's words, as the refinement target of the path
claim: a requested path "treated as relative and joined to the workspace
root" — the (normalised) join `root/fp`.  The code's `resolveFilePath` is
compared against this. -/
def joinToRootSpec (root fp : String) : String :=
  ("/") ++ String.intercalate ("/") (normSegs (splitSlash (root ++ ("/") ++ fp)))

/-- A small workspace without an ignore file: two top-level directories (one
of them `node_modules`), a nested `node_modules`, and two files. -/
def wsA : List Entry :=
  [Entry.dir ("src") [Entry.file ("main.ts"), Entry.dir ("node_modules") [Entry.file ("x.js")]],
   Entry.file ("README.md"),
   Entry.dir ("node_modules") [Entry.file ("a.js")]]

/-- A workspace for the ignore-file scenario: a `build` directory holding
`keep.txt` and `other.txt`, next to a top-level `a.txt`. -/
def wsB : List Entry :=
  [Entry.dir ("build") [Entry.file ("keep.txt"), Entry.file ("other.txt")],
   Entry.file ("a.txt")]

/-- The ignore-file content of the negation scenario. -/
def c1IgnoreContent : String := ("build/
!build/keep.txt")

/-- A reader file system rooted at `/ws`: `a.txt` holds 5 bytes, `big.txt`
holds 11 bytes, everything else is missing. -/
def fsW : String → FsNode := fun p =>
  if p == ("/ws/a.txt") then FsNode.file ("hello")
  else if p == ("/ws/big.txt") then FsNode.file ("hello world")
  else FsNode.missing

unseal List.merge List.mergeSort

/-! ## Lemmas about the scanner -/

mutual

/-- The capped scan is the cap-length prefix of the uncapped traversal:
entry version, needing room in the accumulator (the list version below checks
the cap before calling it). -/
theorem scanEntry_eq_take (skip : String → String → Bool) (N : Nat) (rel : String)
    (acc : List FileInfo) (e : Entry) (h : acc.length < N) :
    scanEntry skip N rel acc e = acc ++ (fullScanEntry skip rel e).take (N - acc.length) := by
  cases e with
  | file name =>
    rw [scanEntry, fullScanEntry]
    by_cases hs : skip name (joinRel rel name)
    · simp [hs]
    · simp only [hs, if_false, Bool.false_eq_true, if_neg]
      rw [List.take_of_length_le (by simp; omega)]
  | dir name children =>
    rw [scanEntry, fullScanEntry]
    by_cases hs : skip name (joinRel rel name)
    · simp [hs]
    · simp only [hs, if_false, Bool.false_eq_true, if_neg]
      rw [scanList_eq_take]
      obtain ⟨m, hm⟩ : ∃ m, N - acc.length = m + 1 := ⟨N - acc.length - 1, by omega⟩
      rw [hm, List.take_succ_cons]
      have hlen : N - (acc ++ [mkDirInfo name (joinRel rel name)]).length = m := by
        simp; omega
      rw [hlen]
      simp
  | other name =>
    rw [scanEntry, fullScanEntry]
    simp

theorem scanList_eq_take (skip : String → String → Bool) (N : Nat) (rel : String)
    (acc : List FileInfo) (es : List Entry) :
    scanList skip N rel acc es = acc ++ (fullScanList skip rel es).take (N - acc.length) := by
  cases es with
  | nil => rw [scanList, fullScanList]; simp
  | cons e rest =>
    rw [scanList, fullScanList]
    by_cases hge : acc.length ≥ N
    · have : N - acc.length = 0 := by omega
      simp [hge, this]
    · have hlt : acc.length < N := by omega
      simp only [hge, if_false, Bool.false_eq_true, if_neg]
      rw [scanList_eq_take, scanEntry_eq_take skip N rel acc e hlt]
      rw [List.take_append_eq_append_take, List.append_assoc]
      have : N - (acc ++ (fullScanEntry skip rel e).take (N - acc.length)).length =
          N - acc.length - (fullScanEntry skip rel e).length := by
        simp [List.length_take]; omega
      rw [this]

end

mutual

/-- Every entry of the uncapped traversal passed its own skip test. -/
theorem mem_fullScanEntry_skip (skip : String → String → Bool) (rel : String)
    (e : Entry) (info : FileInfo) (hm : info ∈ fullScanEntry skip rel e) :
    skip info.name info.relativePath = false := by
  cases e with
  | file name =>
    rw [fullScanEntry] at hm
    by_cases hs : skip name (joinRel rel name)
    · simp [hs] at hm
    · simp only [hs, if_false, Bool.false_eq_true, if_neg, List.mem_singleton] at hm
      subst hm
      simpa [mkFileInfo] using Bool.of_not_eq_true hs
  | dir name children =>
    rw [fullScanEntry] at hm
    by_cases hs : skip name (joinRel rel name)
    · simp [hs] at hm
    · simp only [hs, if_false, Bool.false_eq_true, if_neg, List.mem_cons] at hm
      rcases hm with hm | hm
      · subst hm
        simpa [mkDirInfo] using Bool.of_not_eq_true hs
      · exact mem_fullScanList_skip skip (joinRel rel name) children info hm
  | other name =>
    rw [fullScanEntry] at hm
    simp at hm

theorem mem_fullScanList_skip (skip : String → String → Bool) (rel : String)
    (es : List Entry) (info : FileInfo) (hm : info ∈ fullScanList skip rel es) :
    skip info.name info.relativePath = false := by
  cases es with
  | nil => rw [fullScanList] at hm; simp at hm
  | cons e rest =>
    rw [fullScanList] at hm
    rcases List.mem_append.1 hm with hm | hm
    · exact mem_fullScanEntry_skip skip rel e info hm
    · exact mem_fullScanList_skip skip rel rest info hm

end

/-- Every entry of the scanner's final (sorted, capped) result passed its own
skip test. -/
theorem mem_getWorkspaceStructure_skip (ignore : Option String) (N : Nat)
    (ws : List Entry) (info : FileInfo)
    (hm : info ∈ getWorkspaceStructure ignore N ws) :
    scanSkip ignore info.name info.relativePath = false := by
  unfold getWorkspaceStructure at hm
  rw [List.mem_mergeSort] at hm
  have hm2 := List.take_subset _ _ hm
  rw [scanList_eq_take] at hm2
  simp only [List.nil_append, Nat.sub_zero, List.length_nil] at hm2
  have hm3 := List.take_subset _ _ hm2
  exact mem_fullScanList_skip _ _ _ _ hm3

/-! ## Lemmas about the comparator and the string helpers -/

theorem lexLe_total : ∀ x y : List Char, (lexLe x y || lexLe y x) = true := by
  intro x
  induction x with
  | nil => intro y; simp [lexLe]
  | cons a as ih =>
    intro y
    cases y with
    | nil => simp [lexLe]
    | cons b bs =>
      rw [lexLe, lexLe]
      by_cases hab : a = b
      · subst hab
        simp only [if_pos rfl]
        exact ih bs
      · have hba : ¬ b = a := fun h => hab h.symm
        rw [if_neg hab, if_neg hba]
        rcases lt_or_gt_of_ne hab with h | h
        · simp [h]
        · simp [h]

theorem lexLe_trans : ∀ x y z : List Char,
    lexLe x y = true → lexLe y z = true → lexLe x z = true := by
  intro x
  induction x with
  | nil => intro y z _ _; rw [lexLe]
  | cons a as ih =>
    intro y z hxy hyz
    cases y with
    | nil => rw [lexLe] at hxy; exact absurd hxy (by simp)
    | cons b bs =>
      cases z with
      | nil => rw [lexLe] at hyz; exact absurd hyz (by simp)
      | cons c cs =>
        rw [lexLe] at hxy hyz ⊢
        by_cases hab : a = b
        · subst hab
          rw [if_pos rfl] at hxy
          by_cases hbc : a = c
          · subst hbc
            rw [if_pos rfl] at hyz ⊢
            exact ih bs cs hxy hyz
          · rw [if_neg hbc] at hyz ⊢
            exact hyz
        · rw [if_neg hab] at hxy
          have hab' : a < b := by simpa using hxy
          by_cases hbc : b = c
          · subst hbc
            rw [if_neg hab]
            simpa using hab'
          · rw [if_neg hbc] at hyz
            have hbc' : b < c := by simpa using hyz
            have hac : a < c := lt_trans hab' hbc'
            rw [if_neg (ne_of_lt hac)]
            simpa using hac

theorem strLe_total (a b : String) : (strLe a b || strLe b a) = true :=
  lexLe_total a.data b.data

theorem strLe_trans (a b c : String) (h1 : strLe a b = true) (h2 : strLe b c = true) :
    strLe a c = true :=
  lexLe_trans a.data b.data c.data h1 h2

theorem fileLe_total : ∀ a b : FileInfo, (fileLe a b || fileLe b a) = true := by
  intro a b
  unfold fileLe
  cases ha : a.type <;> cases hb : b.type <;> simp_all
  · exact (by simpa using strLe_total a.name b.name)
  · exact (by simpa using strLe_total a.name b.name)

theorem fileLe_trans : ∀ a b c : FileInfo,
    fileLe a b = true → fileLe b c = true → fileLe a c = true := by
  intro a b c hab hbc
  unfold fileLe at hab hbc ⊢
  cases ha : a.type <;> cases hb : b.type <;> cases hc : c.type <;> simp_all
  · exact strLe_trans _ _ _ hab hbc
  · exact strLe_trans _ _ _ hab hbc

/-- The scanner's output is pairwise ordered by the comparator. -/
theorem getWorkspaceStructure_pairwise (ignore : Option String) (N : Nat)
    (ws : List Entry) :
    (getWorkspaceStructure ignore N ws).Pairwise (fun a b => fileLe a b = true) := by
  unfold getWorkspaceStructure
  exact List.sorted_mergeSort fileLe_trans fileLe_total _

/-- A prefix stays a prefix under `List.map`. -/
theorem isPrefixL_map (f : Char → Char) :
    ∀ a b : List Char, isPrefixL a b = true → isPrefixL (a.map f) (b.map f) = true := by
  intro a
  induction a with
  | nil => intro b _; rw [List.map_nil, isPrefixL]
  | cons x xs ih =>
    intro b h
    cases b with
    | nil => rw [isPrefixL] at h; exact absurd h (by simp)
    | cons y ys =>
      rw [isPrefixL] at h
      rcases Bool.and_eq_true_iff.1 h with ⟨h1, h2⟩
      rw [List.map_cons, List.map_cons, isPrefixL]
      refine Bool.and_eq_true_iff.2 ⟨?_, ih ys h2⟩
      have : x = y := by simpa using h1
      simp [this]

/-- A prefix occurrence is an occurrence. -/
theorem isPrefixL_isInfixL (pat s : List Char) (h : isPrefixL pat s = true) :
    isInfixL pat s = true := by
  cases s with
  | nil => rw [isInfixL]; exact h
  | cons c s' => rw [isInfixL]; simp [h]

/-! ## The claims -/

/-- C10: the `includeHidden` parameter of the `read_file_structure` tool has
no effect — two calls over the same workspace state that differ only in
`includeHidden` return the identical result object (hence identical
`success`, `fileCount`, `structure` and `message`). -/
theorem c10_includeHidden_no_effect :
    ∀ (h h' : Bool) (maxFiles : Nat) (ignore : Option String) (ws : List Entry),
      readFileStructureTool h maxFiles ignore ws = readFileStructureTool h' maxFiles ignore ws :=
  fun _ _ _ _ _ => rfl

/-- C2: for every cap `N` and workspace tree, the scanner collects exactly the
length-`N` prefix of the uncapped traversal (recursion stops at the cap with
the collected entries kept), so the result has at most `N` entries, and
exactly `N` when the tree holds at least `N` non-skipped entries. -/
theorem c2_scanner_cap (ignore : Option String) (N : Nat) (ws : List Entry) :
    scanList (scanSkip ignore) N ("") [] ws =
      (fullScanList (scanSkip ignore) ("") ws).take N ∧
    (getWorkspaceStructure ignore N ws).length ≤ N ∧
    (N ≤ (fullScanList (scanSkip ignore) ("") ws).length →
      (getWorkspaceStructure ignore N ws).length = N) := by
  have hscan : scanList (scanSkip ignore) N ("") [] ws =
      (fullScanList (scanSkip ignore) ("") ws).take N := by
    rw [scanList_eq_take]; simp
  refine ⟨hscan, ?_, ?_⟩
  · unfold getWorkspaceStructure
    rw [List.length_mergeSort, hscan, List.take_take, List.length_take]
    omega
  · intro h
    unfold getWorkspaceStructure
    rw [List.length_mergeSort, hscan, List.take_take, List.length_take]
    omega

/-- Witness for C2 at a concrete tree with three non-skipped entries and cap
two: the scanner returns exactly two entries. -/
theorem c2_scanner_cap_witness : (getWorkspaceStructure none 2 wsA).length = 2 :=
  (c2_scanner_cap none 2 wsA).2.2 (by decide)

/-- C6: in every scanner result, no file entry precedes a directory entry,
and names are non-decreasing (lexicographically) among entries of the same
kind. -/
theorem c6_scanner_sorted (ignore : Option String) (N : Nat) (ws : List Entry)
    (i j : Nat) (hi : i < (getWorkspaceStructure ignore N ws).length)
    (hj : j < (getWorkspaceStructure ignore N ws).length) (hij : i < j) :
    ¬((getWorkspaceStructure ignore N ws)[i].type = FileType.file ∧
        (getWorkspaceStructure ignore N ws)[j].type = FileType.directory) ∧
    ((getWorkspaceStructure ignore N ws)[i].type = (getWorkspaceStructure ignore N ws)[j].type →
      strLe (getWorkspaceStructure ignore N ws)[i].name
        (getWorkspaceStructure ignore N ws)[j].name = true) := by
  have hp := getWorkspaceStructure_pairwise ignore N ws
  rw [List.pairwise_iff_getElem] at hp
  have hle := hp i j hi hj hij
  constructor
  · rintro ⟨hfi, hdj⟩
    unfold fileLe at hle
    rw [hfi, hdj] at hle
    simp at hle
  · intro hty
    unfold fileLe at hle
    rw [hty] at hle
    simpa using hle

/-- Witness for C6 on a concrete scan whose result has a directory first and
two files after it: instantiated at positions 0 and 1. -/
theorem c6_scanner_sorted_witness :
    ¬(((getWorkspaceStructure none 100 wsA).get ⟨0, by decide⟩).type = FileType.file ∧
        ((getWorkspaceStructure none 100 wsA).get ⟨1, by decide⟩).type = FileType.directory) ∧
    (((getWorkspaceStructure none 100 wsA).get ⟨0, by decide⟩).type =
        ((getWorkspaceStructure none 100 wsA).get ⟨1, by decide⟩).type →
      strLe ((getWorkspaceStructure none 100 wsA).get ⟨0, by decide⟩).name
        ((getWorkspaceStructure none 100 wsA).get ⟨1, by decide⟩).name = true) :=
  c6_scanner_sorted none 100 wsA 0 1 (by decide) (by decide) (by decide)

/-- C9: with no ignore file (mode B), a directory named `node_modules` is
skipped and not recursed into at any depth — the loop body leaves the
accumulator unchanged on such an entry — and consequently no entry whose
relative path even contains `node_modules` appears in the scanner's result. -/
theorem c9_node_modules_excluded :
    (∀ (N : Nat) (rel : String) (acc : List FileInfo) (children : List Entry),
        scanEntry (scanSkip none) N rel acc (Entry.dir ("node_modules") children) = acc) ∧
    (∀ (N : Nat) (ws : List Entry) (info : FileInfo),
        info ∈ getWorkspaceStructure none N ws →
        jsIncludes info.relativePath ("node_modules") = false) := by
  have hpat : getSkipPatterns none = (predefinedPatterns, false) := rfl
  have hskip : ∀ name rel : String, jsIncludes name ("node_modules") = true ∨
      jsIncludes rel ("node_modules") = true → scanSkip none name rel = true := by
    intro name rel hinc
    unfold scanSkip
    rw [hpat]
    simp only [shouldSkipFile, Bool.false_eq_true, if_false, if_neg]
    unfold shouldSkipPredef
    refine Bool.or_eq_true_iff.2 (Or.inl (List.any_eq_true.2 ⟨("node_modules"), ?_, ?_⟩))
    · simp [predefinedPatterns]
    · rw [if_neg (by decide)]
      rcases hinc with h | h
      · simp [h]
      · simp [h]
  constructor
  · intro N rel acc children
    rw [scanEntry]
    rw [hskip ("node_modules") (joinRel rel ("node_modules")) (Or.inl (by decide))]
    simp
  · intro N ws info hm
    have h := mem_getWorkspaceStructure_skip none N ws info hm
    cases hx : jsIncludes info.relativePath ("node_modules") with
    | false => rfl
    | true =>
      rw [hskip info.name info.relativePath (Or.inr hx)] at h
      exact absurd h (by simp)

/-- Witness for C9: the top-level `src` directory of the concrete workspace
is in the result, and its relative path indeed does not contain
`node_modules`. -/
theorem c9_node_modules_excluded_witness :
    jsIncludes (mkDirInfo ("src") ("src")).relativePath ("node_modules") = false :=
  c9_node_modules_excluded.2 100 wsA (mkDirInfo ("src") ("src")) (by decide)

/-- C1 counterexample: with the root ignore file containing `build/` followed
by `!build/keep.txt`, the matcher does skip `build/keep.txt` — the non-negated
`build/` pattern is tested first in pattern order and returns immediately, so
the negation is never consulted — and a scan of a workspace that does contain
`build/keep.txt` returns only the top-level `a.txt`, excluding `keep.txt`. -/
theorem c1_negation_counterexample :
    parseGitignoreFile (some c1IgnoreContent) = [("build/"), ("!build/keep.txt")] ∧
    matchesGitignorePattern ("build/keep.txt") ("keep.txt")
      [("build/"), ("!build/keep.txt")] = true ∧
    getWorkspaceStructure (some c1IgnoreContent) 100 wsB = [mkFileInfo ("a.txt") ("a.txt")] :=
  ⟨by decide, by decide, by decide⟩

/-- C1 amended: with an ignore file containing `build/` followed by
`!build/keep.txt`, a scan excludes every entry under `build/` *including*
`build/keep.txt`, and the `build` directory itself: patterns are evaluated in
file order with the first match deciding, so a negation only overrides
patterns listed after it, and the matching `build/` directory is pruned
before its children are ever visited. -/
theorem c1_negation_amended (N : Nat) (ws : List Entry) (info : FileInfo)
    (hm : info ∈ getWorkspaceStructure (some c1IgnoreContent) N ws) :
    jsStartsWith info.relativePath ("build/") = false ∧
    info.relativePath ≠ ("build") ∧
    info.name ≠ ("build") := by
  have h := mem_getWorkspaceStructure_skip (some c1IgnoreContent) N ws info hm
  have hpat : getSkipPatterns (some c1IgnoreContent) =
      ([("build/"), ("!build/keep.txt")], true) := by decide
  unfold scanSkip at h
  rw [hpat] at h
  simp only [shouldSkipFile, if_pos] at h
  -- the first (non-negated) pattern cannot have matched
  have hms : matchSinglePattern (normalizeSeps info.relativePath) info.name ("build/") = false := by
    cases hc : matchSinglePattern (normalizeSeps info.relativePath) info.name ("build/") with
    | false => rfl
    | true =>
      exfalso
      apply absurd h
      simp only [matchesGitignorePattern, matchesGitignoreAux]
      rw [if_neg (by decide), if_neg (by decide), if_pos hc]
      simp
  -- unpack the directory-pattern disjunction
  have e1 : jsStartsWith ("build/") ("/") = false := by decide
  have e2 : jsEndsWith ("build/") ("/") = true := by decide
  have e3 : ("build/" : String).dropRight 1 = ("build") := by decide
  unfold matchSinglePattern at hms
  rw [e1] at hms
  simp only [Bool.false_eq_true, if_false, if_neg] at hms
  rw [if_pos e2, e3] at hms
  simp only [Bool.or_eq_false_iff] at hms
  obtain ⟨⟨hinc, heq⟩, hname⟩ := hms
  refine ⟨?_, ?_, ?_⟩
  · -- a path under build/ would make the normalised path contain "build/"
    cases hx : jsStartsWith info.relativePath ("build/") with
    | false => rfl
    | true =>
      exfalso
      unfold jsStartsWith at hx
      have hpre := isPrefixL_map (fun c => if c == '\\' then '/' else c) _ _ hx
      have hmp : (("build/") : String).data.map (fun c => if c == '\\' then '/' else c) =
          (("build/") : String).data := by decide
      rw [hmp] at hpre
      have : jsIncludes (normalizeSeps info.relativePath) (("build") ++ ("/")) = true := by
        unfold jsIncludes normalizeSeps
        exact isPrefixL_isInfixL _ _ hpre
      rw [this] at hinc
      exact absurd hinc (by simp)
  · intro hrel
    rw [hrel] at heq
    exact absurd heq (by decide)
  · intro hn
    rw [hn] at hname
    exact absurd hname (by simp)

/-- Witness for C1's amended theorem: the surviving `a.txt` entry of the
concrete scan is not under `build/` and is not the `build` directory. -/
theorem c1_negation_amended_witness :
    jsStartsWith (mkFileInfo ("a.txt") ("a.txt")).relativePath ("build/") = false ∧
    (mkFileInfo ("a.txt") ("a.txt")).relativePath ≠ ("build") ∧
    (mkFileInfo ("a.txt") ("a.txt")).name ≠ ("build") :=
  c1_negation_amended 100 wsB (mkFileInfo ("a.txt") ("a.txt")) (by decide)

/-- C7 counterexample: `.env` is on the dotfile allow-list, yet the mode-B
filter skips it — the predefined pattern `.env` matches it by substring before
the dotfile rule is consulted; likewise `.gitignore` is skipped because it
contains the predefined pattern `.git` as a substring. -/
theorem c7_dotfile_counterexample :
    dotfileAllowed (".env") = true ∧
    shouldSkipFile (".env") (".env") predefinedPatterns false = true ∧
    dotfileAllowed (".gitignore") = true ∧
    shouldSkipFile (".gitignore") (".gitignore") predefinedPatterns false = true :=
  ⟨by decide, by decide, by decide, by decide⟩

/-- C7 amended: in mode B every entry whose name starts with `.` and does not
match the allow-list is skipped, and of the allow-listed dotfile names
`.eslintrc`, `.prettierrc` and `.editorconfig` are indeed not skipped — but
`.env` and `.gitignore` are skipped anyway, because the predefined substring
patterns `.env` and `.git` also match them. -/
theorem c7_dotfile_amended :
    (∀ name rel : String, jsStartsWith name (".") = true → dotfileAllowed name = false →
        shouldSkipFile name rel predefinedPatterns false = true) ∧
    shouldSkipFile (".eslintrc") (".eslintrc") predefinedPatterns false = false ∧
    shouldSkipFile (".prettierrc") (".prettierrc") predefinedPatterns false = false ∧
    shouldSkipFile (".editorconfig") (".editorconfig") predefinedPatterns false = false ∧
    shouldSkipFile (".env") (".env") predefinedPatterns false = true ∧
    shouldSkipFile (".gitignore") (".gitignore") predefinedPatterns false = true := by
  refine ⟨?_, by decide, by decide, by decide, by decide, by decide⟩
  intro name rel hdot hallow
  simp only [shouldSkipFile, Bool.false_eq_true, if_false, if_neg]
  unfold shouldSkipPredef
  rw [hdot, hallow]
  simp

/-- Witness for C7's amended theorem: the non-allow-listed dotfile `.foo` is
skipped. -/
theorem c7_dotfile_amended_witness :
    shouldSkipFile (".foo") (".foo") predefinedPatterns false = true :=
  c7_dotfile_amended.1 (".foo") (".foo") (by decide) (by decide)

/-- C8 counterexample: the absolute path `/etc/passwd` does not start with the
workspace root `/ws`, yet `resolveFilePath` returns it unchanged — it is not
"treated as relative and joined to the workspace root", whose join would be
`/ws/etc/passwd`. -/
theorem c8_resolve_counterexample :
    pathIsAbsolute ("/etc/passwd") = true ∧
    jsStartsWith ("/etc/passwd") ("/ws") = false ∧
    resolveFilePath ("/ws") ("/etc/passwd") = ("/etc/passwd") ∧
    joinToRootSpec ("/ws") ("/etc/passwd") = ("/ws/etc/passwd") ∧
    resolveFilePath ("/ws") ("/etc/passwd") ≠ joinToRootSpec ("/ws") ("/etc/passwd") :=
  ⟨by decide, by decide, by decide, by decide, by decide⟩

/-- C8 amended: an absolute path starting with the workspace root is used
unchanged; a *relative* path is joined (with normalisation) to the root; but
an absolute path that does not start with the root is returned as itself
(normalised) by `path.resolve`, not joined to the root. -/
theorem c8_resolve_amended (root fp : String) :
    (pathIsAbsolute fp = true → jsStartsWith fp root = true →
      resolveFilePath root fp = fp) ∧
    (pathIsAbsolute fp = false →
      resolveFilePath root fp = joinToRootSpec root fp) ∧
    (pathIsAbsolute fp = true → jsStartsWith fp root = false →
      resolveFilePath root fp =
        ("/") ++ String.intercalate ("/") (normSegs (splitSlash fp))) := by
  refine ⟨?_, ?_, ?_⟩
  · intro h1 h2
    unfold resolveFilePath
    rw [h1, h2]
    simp
  · intro h1
    unfold resolveFilePath
    rw [h1]
    simp only [Bool.false_and, Bool.false_eq_true, if_false, if_neg]
    unfold pathResolve joinToRootSpec
    rw [h1]
    simp
  · intro h1 h2
    unfold resolveFilePath
    rw [h1, h2]
    simp only [Bool.true_and, Bool.false_eq_true, if_false, if_neg]
    unfold pathResolve
    rw [h1]
    simp

/-- Witness for C8's amended theorem: the relative path `a.txt` resolves to
the normalised join with the root. -/
theorem c8_resolve_amended_witness :
    resolveFilePath ("/ws") ("a.txt") = joinToRootSpec ("/ws") ("a.txt") :=
  (c8_resolve_amended ("/ws") ("a.txt")).2.1 (by decide)

/-- In the validated range the tool returns the `ok` report built from
`processMultipleFiles` and the size filter. -/
theorem readFileCode_eq_ok (fs : String → FsNode) (root : String)
    (paths : List String) (cap : Nat) (h1 : paths.length ≠ 0)
    (h2 : ¬ paths.length > 10) :
    readFileCode fs root paths cap = ReadCodeResult.ok
      (filteredSuccessfulReads cap (processMultipleFiles fs root paths).successfulReads).length
      (processMultipleFiles fs root paths).failedReads.length
      ((processMultipleFiles fs root paths).successfulReads.length -
        (filteredSuccessfulReads cap (processMultipleFiles fs root paths).successfulReads).length)
      paths.length
      (formatFileContentForLLM
        (filteredSuccessfulReads cap (processMultipleFiles fs root paths).successfulReads)
        (processMultipleFiles fs root paths).failedReads)
      (("Successfully read ") ++
        toString (filteredSuccessfulReads cap
          (processMultipleFiles fs root paths).successfulReads).length ++
        ("/") ++ toString paths.length ++ (" files")) := by
  unfold readFileCode
  rw [if_neg (by simpa using h1), if_neg h2]
  rfl

/-- The per-path results partition into the successful and the failed reads. -/
theorem processMultipleFiles_partition (fs : String → FsNode) (root : String)
    (paths : List String) :
    (processMultipleFiles fs root paths).successfulReads.length +
      (processMultipleFiles fs root paths).failedReads.length = paths.length := by
  unfold processMultipleFiles
  simp only [List.length_map]
  have h := @List.length_eq_length_filter_add ProcResult
    (paths.map (processFile fs root)) (fun r => r.success)
  simp only [List.length_map] at h
  have hc : ((paths.map (processFile fs root)).filter (!(fun r : ProcResult => r.success) ·)) =
      ((paths.map (processFile fs root)).filter (fun r => !r.success)) := rfl
  rw [hc] at h
  omega

/-- The size filter keeps at most as many entries as it is given. -/
theorem filteredSuccessfulReads_le (cap : Nat) (succ : List SuccessRead) :
    (filteredSuccessfulReads cap succ).length ≤ succ.length := by
  unfold filteredSuccessfulReads
  exact List.length_filter_le _ _

/-- C3: an empty path list fails with the empty-request error and a list of
more than ten paths fails with the too-many-files error, both as structured
results; for one to ten paths every input path yields exactly one per-file
result (the successful and failed reads partition the requests) and the
returned counts satisfy `filesRead + filesFailed + filesOversized =
totalRequested`. -/
theorem c3_validation_and_counts (fs : String → FsNode) (root : String)
    (paths : List String) (cap : Nat) :
    (paths.length = 0 → readFileCode fs root paths cap =
      ReadCodeResult.failure ("No file paths provided")
        ("Please provide at least one file path to read")) ∧
    (paths.length > 10 → readFileCode fs root paths cap =
      ReadCodeResult.failure ("Too many files requested")
        (("Requested ") ++ toString paths.length ++
          (" files, but maximum is 10 files per call"))) ∧
    (1 ≤ paths.length → paths.length ≤ 10 →
      (processMultipleFiles fs root paths).successfulReads.length +
        (processMultipleFiles fs root paths).failedReads.length = paths.length ∧
      ∃ r f o, (readFileCode fs root paths cap).counts = some (r, f, o, paths.length) ∧
        r + f + o = paths.length) := by
  refine ⟨?_, ?_, ?_⟩
  · intro h
    unfold readFileCode
    rw [if_pos (by simpa using h)]
  · intro h
    unfold readFileCode
    rw [if_neg (by simp only [beq_iff_eq]; omega), if_pos h]
  · intro h1 h2
    have hpart := processMultipleFiles_partition fs root paths
    have hfle := filteredSuccessfulReads_le cap
      (processMultipleFiles fs root paths).successfulReads
    refine ⟨hpart, ?_⟩
    refine ⟨(filteredSuccessfulReads cap
        (processMultipleFiles fs root paths).successfulReads).length,
      (processMultipleFiles fs root paths).failedReads.length,
      (processMultipleFiles fs root paths).successfulReads.length -
        (filteredSuccessfulReads cap
          (processMultipleFiles fs root paths).successfulReads).length, ?_, ?_⟩
    · rw [readFileCode_eq_ok fs root paths cap (by omega) (by omega)]
      rfl
    · omega

/-- Witness for C3: a concrete single-path batch whose counts sum correctly. -/
theorem c3_validation_and_counts_witness :
    (processMultipleFiles fsW ("/ws") [("a.txt")]).successfulReads.length +
      (processMultipleFiles fsW ("/ws") [("a.txt")]).failedReads.length = 1 ∧
    ∃ r f o, (readFileCode fsW ("/ws") [("a.txt")] 100).counts = some (r, f, o, 1) ∧
      r + f + o = 1 :=
  (c3_validation_and_counts fsW ("/ws") [("a.txt")] 100).2.2 (by decide) (by decide)

/-- C4: in a validated batch, the `filesOversized` count is exactly the
number of successfully read files whose UTF-8 byte length exceeds
`maxFileSize * 1024`; the `filesFailed` count remains the number of failed
reads, untouched by the size filter; the content block is rendered only from
the size-filtered successful reads, and an oversized read is not among them. -/
theorem c4_oversized_accounting (fs : String → FsNode) (root : String)
    (paths : List String) (cap : Nat) (h1 : 1 ≤ paths.length)
    (h2 : paths.length ≤ 10) :
    (readFileCode fs root paths cap).counts = some
      ((filteredSuccessfulReads cap (processMultipleFiles fs root paths).successfulReads).length,
       (processMultipleFiles fs root paths).failedReads.length,
       ((processMultipleFiles fs root paths).successfulReads.filter
         (fun f => decide (cap * 1024 < utf8Len f.content))).length,
       paths.length) ∧
    (readFileCode fs root paths cap).contentOf = some
      (formatFileContentForLLM
        (filteredSuccessfulReads cap (processMultipleFiles fs root paths).successfulReads)
        (processMultipleFiles fs root paths).failedReads) ∧
    (∀ f, f ∈ (processMultipleFiles fs root paths).successfulReads →
      cap * 1024 < utf8Len f.content →
      f ∉ filteredSuccessfulReads cap (processMultipleFiles fs root paths).successfulReads) := by
  have hover : (processMultipleFiles fs root paths).successfulReads.length -
      (filteredSuccessfulReads cap (processMultipleFiles fs root paths).successfulReads).length =
      ((processMultipleFiles fs root paths).successfulReads.filter
        (fun f => decide (cap * 1024 < utf8Len f.content))).length := by
    have hsplit := @List.length_eq_length_filter_add SuccessRead
      (processMultipleFiles fs root paths).successfulReads
      (fun f => decide (utf8Len f.content ≤ cap * 1024))
    have hcongr : ((processMultipleFiles fs root paths).successfulReads.filter
        (!(fun f : SuccessRead => decide (utf8Len f.content ≤ cap * 1024)) ·)) =
        ((processMultipleFiles fs root paths).successfulReads.filter
          (fun f => decide (cap * 1024 < utf8Len f.content))) := by
      apply List.filter_congr
      intro x _
      rcases le_or_lt (utf8Len x.content) (cap * 1024) with hle | hlt
      · simp [hle, Nat.not_lt.2 hle]
      · simp [hlt, Nat.not_le.2 hlt]
    rw [hcongr] at hsplit
    unfold filteredSuccessfulReads
    omega
  refine ⟨?_, ?_, ?_⟩
  · rw [readFileCode_eq_ok fs root paths cap (by omega) (by omega), ← hover]
    rfl
  · rw [readFileCode_eq_ok fs root paths cap (by omega) (by omega)]
    rfl
  · intro f hf hover'
    intro hmem
    unfold filteredSuccessfulReads at hmem
    rcases List.mem_filter.1 hmem with ⟨_, hle⟩
    have : utf8Len f.content ≤ cap * 1024 := by simpa using hle
    omega

/-- Witness for C4 at a concrete batch with size cap 0: both successful reads
are oversized, the failed one stays failed, and the oversized `a.txt` read is
excluded from the rendered successful set. -/
theorem c4_oversized_accounting_witness :
    (readFileCode fsW ("/ws") [("a.txt"), ("big.txt"), ("nope.txt")] 0).counts = some
      ((filteredSuccessfulReads 0
          (processMultipleFiles fsW ("/ws") [("a.txt"), ("big.txt"), ("nope.txt")]).successfulReads).length,
       (processMultipleFiles fsW ("/ws") [("a.txt"), ("big.txt"), ("nope.txt")]).failedReads.length,
       ((processMultipleFiles fsW ("/ws") [("a.txt"), ("big.txt"), ("nope.txt")]).successfulReads.filter
         (fun f => decide (0 * 1024 < utf8Len f.content))).length,
       3) ∧
    (readFileCode fsW ("/ws") [("a.txt"), ("big.txt"), ("nope.txt")] 0).contentOf = some
      (formatFileContentForLLM
        (filteredSuccessfulReads 0
          (processMultipleFiles fsW ("/ws") [("a.txt"), ("big.txt"), ("nope.txt")]).successfulReads)
        (processMultipleFiles fsW ("/ws") [("a.txt"), ("big.txt"), ("nope.txt")]).failedReads) ∧
    (∀ f, f ∈ (processMultipleFiles fsW ("/ws") [("a.txt"), ("big.txt"), ("nope.txt")]).successfulReads →
      0 * 1024 < utf8Len f.content →
      f ∉ filteredSuccessfulReads 0
        (processMultipleFiles fsW ("/ws") [("a.txt"), ("big.txt"), ("nope.txt")]).successfulReads) :=
  c4_oversized_accounting fsW ("/ws") [("a.txt"), ("big.txt"), ("nope.txt")] 0
    (by decide) (by decide)

set_option linter.unusedVariables false in
/-- C5: in a batch of one to ten paths, a path that does not resolve to an
existing regular file yields the not-found failure for that path alone (and
the corresponding failure record is in the batch's failed reads), while every
other path resolving to a readable file still yields its successful read —
and the successful and failed reads together account for exactly one result
per requested path. -/
theorem c5_notfound_isolation (fs : String → FsNode) (root : String)
    (paths : List String) (h1 : 1 ≤ paths.length) (h2 : paths.length ≤ 10) :
    ((processMultipleFiles fs root paths).successfulReads.length +
      (processMultipleFiles fs root paths).failedReads.length = paths.length) ∧
    (∀ fp, fp ∈ paths → isRegularFile (fs (resolveFilePath root fp)) = false →
      processFile fs root fp = { success := false, filePath := fp, content := none, size := none, error := some (("File not found: ") ++ fp) } ∧
      ({ filePath := fp, error := ("File not found: ") ++ fp } : FailRead) ∈
        (processMultipleFiles fs root paths).failedReads) ∧
    (∀ fp c, fp ∈ paths → fs (resolveFilePath root fp) = FsNode.file c →
      ({ filePath := fp, content := c, size := formatFileSize (utf8Len c) } : SuccessRead) ∈
        (processMultipleFiles fs root paths).successfulReads) := by
  refine ⟨processMultipleFiles_partition fs root paths, ?_, ?_⟩
  · intro fp hfp hreg
    have hpf : processFile fs root fp = { success := false, filePath := fp, content := none, size := none, error := some (("File not found: ") ++ fp) } := by
      unfold processFile
      cases hnode : fs (resolveFilePath root fp) with
      | missing => rfl
      | directory => rfl
      | file c => rw [hnode] at hreg; exact absurd hreg (by simp [isRegularFile])
      | unreadable m => rw [hnode] at hreg; exact absurd hreg (by simp [isRegularFile])
    refine ⟨hpf, ?_⟩
    unfold processMultipleFiles
    simp only
    have hmem : processFile fs root fp ∈ paths.map (processFile fs root) :=
      List.mem_map_of_mem _ hfp
    have hfil : processFile fs root fp ∈
        (paths.map (processFile fs root)).filter (fun r => !r.success) := by
      refine List.mem_filter.2 ⟨hmem, ?_⟩
      rw [hpf]
      rfl
    have := List.mem_map_of_mem
      (fun r : ProcResult => ({ filePath := r.filePath, error := r.error.getD ("") } : FailRead))
      hfil
    rw [hpf] at this
    exact this
  · intro fp c hfp hnode
    have hpf : processFile fs root fp = { success := true, filePath := fp, content := some c, size := some (formatFileSize (utf8Len c)), error := none } := by
      unfold processFile
      rw [hnode]
    unfold processMultipleFiles
    simp only
    have hmem : processFile fs root fp ∈ paths.map (processFile fs root) :=
      List.mem_map_of_mem _ hfp
    have hfil : processFile fs root fp ∈
        (paths.map (processFile fs root)).filter (fun r => r.success) := by
      refine List.mem_filter.2 ⟨hmem, ?_⟩
      rw [hpf]
    have := List.mem_map_of_mem
      (fun r : ProcResult => ({ filePath := r.filePath, content := r.content.getD (""), size := r.size.getD ("") } : SuccessRead)) hfil
    rw [hpf] at this
    exact this

/-- Witness for C5: in the concrete batch, the missing `nope.txt` yields its
not-found failure record while `a.txt` still succeeds. -/
theorem c5_notfound_isolation_witness :
    (processFile fsW ("/ws") ("nope.txt") = { success := false, filePath := ("nope.txt"), content := none, size := none, error := some (("File not found: ") ++ ("nope.txt")) } ∧
    ({ filePath := ("nope.txt"), error := ("File not found: ") ++ ("nope.txt") } : FailRead) ∈
      (processMultipleFiles fsW ("/ws") [("nope.txt"), ("a.txt")]).failedReads) ∧
    ({ filePath := ("a.txt"), content := ("hello"), size := formatFileSize (utf8Len ("hello")) } : SuccessRead) ∈
      (processMultipleFiles fsW ("/ws") [("nope.txt"), ("a.txt")]).successfulReads :=
  ⟨(c5_notfound_isolation fsW ("/ws") [("nope.txt"), ("a.txt")] (by decide) (by decide)).2.1
      ("nope.txt") (by decide) (by decide),
   (c5_notfound_isolation fsW ("/ws") [("nope.txt"), ("a.txt")] (by decide) (by decide)).2.2
      ("a.txt") ("hello") (by decide) (by decide)⟩
